import Mathlib

/-!
Verification of the gemini-cli retry controller (`retryWithBackoff`) and of the
`ChatHistoryService` checkpoint store.

The retry controller implementation (`packages/core/src/utils/retry.ts`) is not
part of the visible sources — only its test suites are — so the controller is
modelled from the specification (sections 3, 4.1, 7 and 8 of the design
document).  `ChatHistoryService` is translated from
`packages/core/src/services/ChatHistoryService.ts`.
-/

/-- Modelled from the spec: an error produced by the operation.  It exposes an
optional numeric status used for classification (section 6), plus a numeric
identifier so that distinct failures can be told apart when reasoning about
which error is propagated. -/
structure Err where
  status : Option Nat
  id : Nat
deriving DecidableEq

/-- Modelled from the spec: the default retryability classification — an error
is retryable by default exactly when it carries a numeric status of 429 or in
the range 500–599; all other errors (including those without a status) are
non-retryable (section 4.1, "Error classification default"). -/
def defaultShouldRetry (e : Err) : Bool :=
  match e.status with
  | some s => s == 429 || (decide (500 ≤ s) && decide (s ≤ 599))
  | none => false

/-- Modelled from the spec: a failure counts toward escalation exactly when it
is classified specifically as a rate-limit (429) error; this classification
point is distinct from the `shouldRetry` retryability check (section 9). -/
def isRateLimitError (e : Err) : Bool :=
  e.status == some 429

/-- Modelled from the spec: the caller's authentication mode, an opaque tag
used only to decide whether escalation may be offered at all (section 3). -/
inductive AuthMode where
  | oauthPersonal
  | geminiApiKey
  | vertexApiKey
deriving DecidableEq

/-- Modelled from the spec: an API-key-style auth mode never triggers
escalation, regardless of failure pattern; other modes do (section 3). -/
def AuthMode.permitsEscalation : AuthMode → Bool
  | AuthMode.oauthPersonal => true
  | AuthMode.geminiApiKey => false
  | AuthMode.vertexApiKey => false

/-- Modelled from the spec: the outcome of the escalation hook — it may resolve
to an escalation target (acceptance), resolve to null (decline), or throw
(section 4.1 step c). -/
inductive HookOutcome (T : Type) where
  | resolved (target : Option T)
  | raised
deriving DecidableEq

/-- Modelled from the spec: the retry policy (section 3).  Delays are rational
numbers of milliseconds so that the multiplicative jitter factor can be
represented exactly. -/
structure RetryPolicy (T : Type) where
  maxAttempts : Nat := 5
  initialDelayMs : Rat := 5000
  maxDelayMs : Rat := 30000
  shouldRetry : Err → Bool := defaultShouldRetry
  onPersistent429 : Option (AuthMode → Err → HookOutcome T) := none
  authType : AuthMode

/-- Modelled from the spec: the per-invocation mutable attempt state
(section 3) together with the observable history of the invocation: number of
operation invocations so far, arguments of every escalation-hook call, the
scheduled pre-jitter base delays, the actual (jittered) delays, and snapshots
of `(attemptNumber, consecutiveRateLimitCount)` taken at the start of every
loop iteration and again right after the counter update.  The history lists
are accumulated in reverse order. -/
structure LoopState where
  attemptNumber : Nat
  consecutive429Count : Nat
  escalationOffered : Bool
  invocations : Nat
  hookCalls : List (AuthMode × Err)
  baseDelays : List Rat
  delays : List Rat
  states : List (Nat × Nat)
deriving DecidableEq

deriving instance DecidableEq for Except

/-- Modelled from the spec: the observable outcome of one invocation of the
retry controller: the final result together with the invocation history. -/
structure RetryResult (R : Type) where
  result : Except Err R
  invocations : Nat
  hookCalls : List (AuthMode × Err)
  baseDelays : List Rat
  delays : List Rat
  states : List (Nat × Nat)
deriving DecidableEq

/-- Package the accumulated state into a final result, restoring chronological
order of the history lists. -/
def LoopState.finish (s : LoopState) {R : Type} (res : Except Err R) : RetryResult R :=
  { result := res
    invocations := s.invocations
    hookCalls := s.hookCalls.reverse
    baseDelays := s.baseDelays.reverse
    delays := s.delays.reverse
    states := s.states.reverse }

/-- Modelled from the spec: the consecutive rate-limit counter update
(section 4.1 step b) — increment on a rate-limit failure, reset to 0 on any
other failure. -/
def nextConsecutive429 (c : Nat) (e : Err) : Nat :=
  if isRateLimitError e then c + 1 else 0

/-- The two possible continuations of one iteration of the attempt loop:
either the invocation is over, or the loop continues with an updated state. -/
inductive StepRes (R : Type) where
  | done (r : RetryResult R)
  | next (s : LoopState)
deriving DecidableEq

/-- Modelled from the spec: the escalation gate (section 4.1 step c) — an
offer is made only when the auth mode permits escalation, none was offered
yet during this invocation, and the consecutive rate-limit count reached 2.
(That a hook must be configured is checked separately at the call site.) -/
def offersEscalation {T : Type} (P : RetryPolicy T) (offered : Bool) (cons : Nat) : Bool :=
  P.authType.permitsEscalation && !offered && decide (2 ≤ cons)

/-- Modelled from the spec: one iteration of the attempt loop (section 4.1).
The operation is a function from the 0-based invocation index to an outcome;
`j` is the injected stream of jitter factors, consumed one per scheduled
delay.  Steps: invoke; on success return; on failure classify via
`shouldRetry` and propagate if non-retryable; update the consecutive
rate-limit counter; offer escalation when the auth mode permits it, a hook is
configured, none was offered yet this invocation and the counter reached 2
(acceptance resets `attemptNumber` to 1 and the counter to 0 and retries
immediately with no delay; a decline or a hook error is a no-op for the error
flow, but the offer still counts as made — escalation is offered at most once
per invocation, section 3); then exhaust the budget or schedule a delayed
retry with base delay `min (initialDelay * 2 ^ (attemptNumber - 1)) maxDelay`
multiplied by the next jitter factor. -/
def retryStep {R T : Type} (P : RetryPolicy T) (op : Nat → Except Err R)
    (j : Nat → Rat) (s : LoopState) : StepRes R :=
  let s0 : LoopState := { s with states := (s.attemptNumber, s.consecutive429Count) :: s.states }
  match op s0.invocations with
  | Except.ok r => StepRes.done (LoopState.finish { s0 with invocations := s0.invocations + 1 } (Except.ok r))
  | Except.error e =>
    let s1 : LoopState := { s0 with invocations := s0.invocations + 1 }
    if P.shouldRetry e = false then
      StepRes.done (s1.finish (Except.error e))
    else
      let cons := nextConsecutive429 s1.consecutive429Count e
      let s2 : LoopState := { s1 with consecutive429Count := cons
                                      states := (s1.attemptNumber, cons) :: s1.states }
      let esc : LoopState × Bool :=
        match P.onPersistent429 with
        | none => (s2, false)
        | some h =>
          if offersEscalation P s2.escalationOffered cons then
            let s3 : LoopState := { s2 with hookCalls := (P.authType, e) :: s2.hookCalls
                                            escalationOffered := true }
            match h P.authType e with
            | HookOutcome.resolved (some _) =>
              ({ s3 with attemptNumber := 1, consecutive429Count := 0 }, true)
            | HookOutcome.resolved none => (s3, false)
            | HookOutcome.raised => (s3, false)
          else (s2, false)
      if esc.2 then
        StepRes.next esc.1
      else if P.maxAttempts ≤ esc.1.attemptNumber then
        StepRes.done (esc.1.finish (Except.error e))
      else
        let base : Rat := min (P.initialDelayMs * 2 ^ (esc.1.attemptNumber - 1)) P.maxDelayMs
        StepRes.next { esc.1 with attemptNumber := esc.1.attemptNumber + 1
                                  baseDelays := base :: esc.1.baseDelays
                                  delays := base * j esc.1.delays.length :: esc.1.delays }

/-- Modelled from the spec: the attempt loop, driven by fuel.  The fuel only
bounds the number of loop iterations; `retryWithBackoff` supplies enough fuel
for every possible run (the attempt number is reset at most once, by an
accepted escalation, so at most `2 * maxAttempts` iterations can occur). -/
def retryLoop {R T : Type} (P : RetryPolicy T) (op : Nat → Except Err R)
    (j : Nat → Rat) : Nat → LoopState → RetryResult R
  | 0, s => s.finish (Except.error { status := none, id := 0 })
  | fuel + 1, s =>
    match retryStep P op j s with
    | StepRes.done r => r
    | StepRes.next s1 => retryLoop P op j fuel s1

/-- The attempt state at the start of an invocation: `attemptNumber = 1`,
no consecutive rate-limit failures, no escalation offered, empty history. -/
def initLoopState : LoopState :=
  { attemptNumber := 1
    consecutive429Count := 0
    escalationOffered := false
    invocations := 0
    hookCalls := []
    baseDelays := []
    delays := []
    states := [] }

/-- Modelled from the spec: `retryWithBackoff(operation, policy)` — run the
attempt loop from the initial state (section 4.1, contract `execute`). -/
def retryWithBackoff {R T : Type} (P : RetryPolicy T) (op : Nat → Except Err R)
    (j : Nat → Rat) : RetryResult R :=
  retryLoop P op j (2 * P.maxAttempts + 1) initLoopState

/-- A conversation entry, opaque to the checkpoint store (the store only
serializes and deserializes it); modelled as a wrapped number. -/
structure Content where
  data : Nat
deriving DecidableEq

/-- Abstraction of a stored file as the checkpoint store observes it through
`fs.readFile` followed by `JSON.parse`: reading may fail (with an error other
than ENOENT), the content may fail to parse as JSON, or it parses to a JSON
value that is either an array of conversation entries or something else.  A
path mapped to `none` by the file system is an absent file (ENOENT). -/
inductive StoredFile where
  | unreadable
  | invalidJson
  | jsonArray (items : List Content)
  | jsonOther
deriving DecidableEq

/-- Console output produced by the checkpoint store. -/
inductive LogEvent where
  | errorNotInit
  | errorWrite (path : String)
  | errorReadOrParse (path : String)
  | warnNotArray (path : String)
deriving DecidableEq

/-- Errors thrown by the checkpoint store (`_checkpointPath` throws either of
these two outside the try/catch blocks). -/
inductive CheckpointError where
  | noCheckpointTag
  | pathNotSet
deriving DecidableEq

/-- The message carried by each thrown error, as in the source. -/
def CheckpointError.message : CheckpointError → String
  | CheckpointError.noCheckpointTag => "No checkpoint tag specified."
  | CheckpointError.pathNotSet => "Checkpoint file path not set."

/-- Modelled from the spec: `getProjectTempDir` lives in
`packages/core/src/utils/paths.ts`, which is not among the visible sources;
the spec only requires the store to own a storage location, so it is modelled
as a total function of the working directory. -/
def getProjectTempDir (cwd : String) : String :=
  ".gemini/tmp/" ++ cwd

/-- A POSIX path is absolute when it starts with a separator
(`path.isAbsolute`). -/
def isAbsolutePath (p : String) : Bool :=
  p.startsWith "/"

/-- The service state: `geminiDir` and the `initialized` flag
(`ChatHistoryService.ts`, fields). -/
structure ChatHistoryService where
  geminiDir : Option String
  initialized : Bool
deriving DecidableEq

/-- A fresh service (the constructor also kicks off initialization, which is
modelled as happening through `initStep` on first use). -/
def ChatHistoryService.new : ChatHistoryService :=
  { geminiDir := none, initialized := false }

/-- `ChatHistoryService.initialize`: a no-op when already initialized,
otherwise record the project temp dir and mark the service initialized
(directory creation always succeeds in the model). -/
def ChatHistoryService.initStep (svc : ChatHistoryService) (cwd : String) : ChatHistoryService :=
  if svc.initialized then svc
  else { geminiDir := some (getProjectTempDir cwd), initialized := true }

/-- `ChatHistoryService._checkpointPath`: throws `noCheckpointTag` on an empty
tag, throws `pathNotSet` when `geminiDir` is unset, otherwise joins the
directory with `checkpoint-<tag>.json`. -/
def ChatHistoryService.checkpointPath (svc : ChatHistoryService) (tag : String) :
    Except CheckpointError String :=
  if tag.length = 0 then Except.error CheckpointError.noCheckpointTag
  else
    match svc.geminiDir with
    | none => Except.error CheckpointError.pathNotSet
    | some d => Except.ok (d ++ "/checkpoint-" ++ tag ++ ".json")

/-- Path resolution in `ChatHistoryService.load`: an absolute argument is used
as-is, anything else is treated as a tag. -/
def resolveLoadPath (svc : ChatHistoryService) (tagOrPath : String) :
    Except CheckpointError String :=
  if isAbsolutePath tagOrPath then Except.ok tagOrPath
  else svc.checkpointPath tagOrPath

/-- `ChatHistoryService.load`: initialize if needed, resolve the path (this can
throw, which the `Except` layer records), then read and parse the checkpoint
inside try/catch: an absent file (ENOENT) silently yields `[]`; a read failure
or unparseable content is logged and yields `[]`; parsed content that is not a
JSON array is warned about and yields `[]`; an array is returned as-is.
The file system is passed explicitly as a map from paths to stored files. -/
def ChatHistoryService.load (svc : ChatHistoryService) (fs : String → Option StoredFile)
    (cwd : String) (tagOrPath : String) :
    Except CheckpointError (List Content) × List LogEvent :=
  let svc1 := svc.initStep cwd
  match resolveLoadPath svc1 tagOrPath with
  | Except.error e => (Except.error e, [])
  | Except.ok p =>
    match fs p with
    | none => (Except.ok [], [])
    | some StoredFile.unreadable => (Except.ok [], [LogEvent.errorReadOrParse p])
    | some StoredFile.invalidJson => (Except.ok [], [LogEvent.errorReadOrParse p])
    | some (StoredFile.jsonArray items) => (Except.ok items, [])
    | some StoredFile.jsonOther => (Except.ok [], [LogEvent.warnNotArray p])

/-- `ChatHistoryService.save`: initialize, bail out with a console error when
initialization did not take (unreachable in the model, kept for fidelity),
compute the checkpoint path (this can throw on an empty tag), then write the
serialized conversation; a write failure is logged, not thrown.  Returns the
updated file system together with the console output. -/
def ChatHistoryService.save (svc : ChatHistoryService) (fs : String → Option StoredFile)
    (cwd : String) (conversation : List Content) (tag : String) (writeOk : Bool) :
    Except CheckpointError ((String → Option StoredFile) × List LogEvent) :=
  let svc1 := svc.initStep cwd
  if svc1.initialized = false then Except.ok (fs, [LogEvent.errorNotInit])
  else
    match svc1.checkpointPath tag with
    | Except.error e => Except.error e
    | Except.ok p =>
      if writeOk then
        Except.ok (fun q => if q = p then some (StoredFile.jsonArray conversation) else fs q, [])
      else Except.ok (fs, [LogEvent.errorWrite p])

/-! ## Concrete scenario data used to instantiate the theorems below -/

/-- A jitter stream that always returns 1 (inside the jitter bounds). -/
def wJone : Nat → Rat := fun _ => 1

/-- An operation that fails with a fresh rate-limit error on every attempt. -/
def wOp429 : Nat → Except Err Nat := fun k => Except.error { status := some 429, id := k }

/-- An operation that fails with a fresh 500 error on every attempt. -/
def wOp500 : Nat → Except Err Nat := fun k => Except.error { status := some 500, id := k }

/-- An operation that fails with a 400 error on every attempt. -/
def wOp400 : Nat → Except Err Nat := fun k => Except.error { status := some 400, id := k }

/-- A hook that always accepts, returning the target `7`. -/
def wHookAccept : AuthMode → Err → HookOutcome Nat := fun _ _ => HookOutcome.resolved (some 7)

/-- A hook that always declines. -/
def wHookDecline : AuthMode → Err → HookOutcome Nat := fun _ _ => HookOutcome.resolved none

/-- Two rate-limit failures, then success. -/
def w1Op : Nat → Except Err Nat := fun k =>
  if k = 0 then Except.error { status := some 429, id := 0 }
  else if k = 1 then Except.error { status := some 429, id := 1 }
  else Except.ok 42

/-- OAuth policy with budget 2 and an accepting hook. -/
def w1P : RetryPolicy Nat :=
  { maxAttempts := 2, initialDelayMs := 1, maxDelayMs := 10,
    onPersistent429 := some wHookAccept, authType := AuthMode.oauthPersonal }

/-- OAuth policy with budget 3 and an accepting hook. -/
def c2P : RetryPolicy Nat :=
  { maxAttempts := 3, initialDelayMs := 100, maxDelayMs := 250,
    onPersistent429 := some wHookAccept, authType := AuthMode.oauthPersonal }

/-- Hookless OAuth policy with budget 3. -/
def w2P : RetryPolicy Nat :=
  { maxAttempts := 3, initialDelayMs := 10, maxDelayMs := 100,
    authType := AuthMode.oauthPersonal }

/-- API-key policy with budget 5 and an accepting hook. -/
def w3P : RetryPolicy Nat :=
  { maxAttempts := 5, initialDelayMs := 10, maxDelayMs := 100,
    onPersistent429 := some wHookAccept, authType := AuthMode.geminiApiKey }

/-- OAuth policy with budget 5 and an accepting hook. -/
def w3Q : RetryPolicy Nat :=
  { maxAttempts := 5, initialDelayMs := 10, maxDelayMs := 100,
    onPersistent429 := some wHookAccept, authType := AuthMode.oauthPersonal }

/-- A server error, then two rate-limit failures, then success. -/
def w5Op : Nat → Except Err Nat := fun k =>
  if k = 0 then Except.error { status := some 500, id := 0 }
  else if k ≤ 2 then Except.error { status := some 429, id := k }
  else Except.ok 99

/-- OAuth policy with budget 5 and an accepting hook, default delays. -/
def w5P : RetryPolicy Nat :=
  { maxAttempts := 5, initialDelayMs := 100, maxDelayMs := 30000,
    onPersistent429 := some wHookAccept, authType := AuthMode.oauthPersonal }

/-- OAuth policy with budget 2 and a declining hook. -/
def w6P : RetryPolicy Nat :=
  { maxAttempts := 2, initialDelayMs := 1, maxDelayMs := 10,
    onPersistent429 := some wHookDecline, authType := AuthMode.oauthPersonal }

/-- Hookless policy exercising the delay cap: budget 4, base 100, cap 250. -/
def w7P : RetryPolicy Nat :=
  { maxAttempts := 4, initialDelayMs := 100, maxDelayMs := 250,
    onPersistent429 := none, authType := AuthMode.oauthPersonal }

/-- Default policy (default classification and delays) with budget 5. -/
def w8P : RetryPolicy Nat := { maxAttempts := 5, authType := AuthMode.oauthPersonal }

/-- Agreement of two attempt states on everything except the hook-call
history and the offered flag: attempt counters, invocation count, delays and
state snapshots coincide. -/
def LoopState.agreesCore (u v : LoopState) : Prop :=
  u.attemptNumber = v.attemptNumber ∧ u.consecutive429Count = v.consecutive429Count ∧
  u.invocations = v.invocations ∧ u.baseDelays = v.baseDelays ∧
  u.delays = v.delays ∧ u.states = v.states

/-- Agreement of two results on everything except the hook-call history. -/
def RetryResult.agreesCore {R : Type} (r q : RetryResult R) : Prop :=
  r.result = q.result ∧ r.invocations = q.invocations ∧ r.baseDelays = q.baseDelays ∧
  r.delays = q.delays ∧ r.states = q.states

/-- Agreement of two loop continuations: both finish with agreeing results or
both continue with agreeing states. -/
def StepRes.agrees {R : Type} : StepRes R → StepRes R → Prop
  | StepRes.done r, StepRes.done q => r.agreesCore q
  | StepRes.next u, StepRes.next v => u.agreesCore v
  | _, _ => False

/-! ## Basic unfolding lemmas for the attempt loop -/

theorem retryLoop_zero {R T : Type} (P : RetryPolicy T) (op : Nat → Except Err R)
    (j : Nat → Rat) (s : LoopState) :
    retryLoop P op j 0 s = s.finish (Except.error { status := none, id := 0 }) := rfl

theorem retryLoop_succ {R T : Type} (P : RetryPolicy T) (op : Nat → Except Err R)
    (j : Nat → Rat) (fuel : Nat) (s : LoopState) :
    retryLoop P op j (fuel + 1) s =
      match retryStep P op j s with
      | StepRes.done r => r
      | StepRes.next s1 => retryLoop P op j fuel s1 := rfl

/-- Exhaustive characterization of one loop iteration: success; non-retryable
failure; retryable failure without an escalation offer (budget exhausted or
retry after a delay); escalation offered and accepted (immediate retry with
reset counters); escalation offered and declined or erroring (budget exhausted
or retry after a delay). -/
theorem retryStep_cases {R T : Type} (P : RetryPolicy T) (op : Nat → Except Err R)
    (j : Nat → Rat) (s : LoopState) :
    (∃ r, op s.invocations = Except.ok r ∧
      retryStep P op j s = StepRes.done
        { result := Except.ok r, invocations := s.invocations + 1,
          hookCalls := s.hookCalls.reverse, baseDelays := s.baseDelays.reverse,
          delays := s.delays.reverse,
          states := ((s.attemptNumber, s.consecutive429Count) :: s.states).reverse }) ∨
    (∃ e, op s.invocations = Except.error e ∧ P.shouldRetry e = false ∧
      retryStep P op j s = StepRes.done
        { result := Except.error e, invocations := s.invocations + 1,
          hookCalls := s.hookCalls.reverse, baseDelays := s.baseDelays.reverse,
          delays := s.delays.reverse,
          states := ((s.attemptNumber, s.consecutive429Count) :: s.states).reverse }) ∨
    (∃ e, op s.invocations = Except.error e ∧ P.shouldRetry e = true ∧
      (P.onPersistent429 = none ∨
        offersEscalation P s.escalationOffered (nextConsecutive429 s.consecutive429Count e) = false) ∧
      P.maxAttempts ≤ s.attemptNumber ∧
      retryStep P op j s = StepRes.done
        { result := Except.error e, invocations := s.invocations + 1,
          hookCalls := s.hookCalls.reverse, baseDelays := s.baseDelays.reverse,
          delays := s.delays.reverse,
          states := ((s.attemptNumber, nextConsecutive429 s.consecutive429Count e) ::
            (s.attemptNumber, s.consecutive429Count) :: s.states).reverse }) ∨
    (∃ e, op s.invocations = Except.error e ∧ P.shouldRetry e = true ∧
      (P.onPersistent429 = none ∨
        offersEscalation P s.escalationOffered (nextConsecutive429 s.consecutive429Count e) = false) ∧
      s.attemptNumber < P.maxAttempts ∧
      retryStep P op j s = StepRes.next
        { attemptNumber := s.attemptNumber + 1,
          consecutive429Count := nextConsecutive429 s.consecutive429Count e,
          escalationOffered := s.escalationOffered, invocations := s.invocations + 1,
          hookCalls := s.hookCalls,
          baseDelays := min (P.initialDelayMs * 2 ^ (s.attemptNumber - 1)) P.maxDelayMs :: s.baseDelays,
          delays := min (P.initialDelayMs * 2 ^ (s.attemptNumber - 1)) P.maxDelayMs * j s.delays.length :: s.delays,
          states := (s.attemptNumber, nextConsecutive429 s.consecutive429Count e) ::
            (s.attemptNumber, s.consecutive429Count) :: s.states }) ∨
    (∃ e h t, op s.invocations = Except.error e ∧ P.shouldRetry e = true ∧
      P.onPersistent429 = some h ∧
      offersEscalation P s.escalationOffered (nextConsecutive429 s.consecutive429Count e) = true ∧
      h P.authType e = HookOutcome.resolved (some t) ∧
      retryStep P op j s = StepRes.next
        { attemptNumber := 1, consecutive429Count := 0,
          escalationOffered := true, invocations := s.invocations + 1,
          hookCalls := (P.authType, e) :: s.hookCalls,
          baseDelays := s.baseDelays, delays := s.delays,
          states := (s.attemptNumber, nextConsecutive429 s.consecutive429Count e) ::
            (s.attemptNumber, s.consecutive429Count) :: s.states }) ∨
    (∃ e h, op s.invocations = Except.error e ∧ P.shouldRetry e = true ∧
      P.onPersistent429 = some h ∧
      offersEscalation P s.escalationOffered (nextConsecutive429 s.consecutive429Count e) = true ∧
      (h P.authType e = HookOutcome.resolved none ∨ h P.authType e = HookOutcome.raised) ∧
      P.maxAttempts ≤ s.attemptNumber ∧
      retryStep P op j s = StepRes.done
        { result := Except.error e, invocations := s.invocations + 1,
          hookCalls := ((P.authType, e) :: s.hookCalls).reverse,
          baseDelays := s.baseDelays.reverse, delays := s.delays.reverse,
          states := ((s.attemptNumber, nextConsecutive429 s.consecutive429Count e) ::
            (s.attemptNumber, s.consecutive429Count) :: s.states).reverse }) ∨
    (∃ e h, op s.invocations = Except.error e ∧ P.shouldRetry e = true ∧
      P.onPersistent429 = some h ∧
      offersEscalation P s.escalationOffered (nextConsecutive429 s.consecutive429Count e) = true ∧
      (h P.authType e = HookOutcome.resolved none ∨ h P.authType e = HookOutcome.raised) ∧
      s.attemptNumber < P.maxAttempts ∧
      retryStep P op j s = StepRes.next
        { attemptNumber := s.attemptNumber + 1,
          consecutive429Count := nextConsecutive429 s.consecutive429Count e,
          escalationOffered := true, invocations := s.invocations + 1,
          hookCalls := (P.authType, e) :: s.hookCalls,
          baseDelays := min (P.initialDelayMs * 2 ^ (s.attemptNumber - 1)) P.maxDelayMs :: s.baseDelays,
          delays := min (P.initialDelayMs * 2 ^ (s.attemptNumber - 1)) P.maxDelayMs * j s.delays.length :: s.delays,
          states := (s.attemptNumber, nextConsecutive429 s.consecutive429Count e) ::
            (s.attemptNumber, s.consecutive429Count) :: s.states }) := by
  obtain ⟨a, c, o, i, hc, bd, dl, st⟩ := s
  dsimp only
  cases hop : op i with
  | ok r =>
    exact Or.inl ⟨r, rfl, by simp [retryStep, hop, LoopState.finish]⟩
  | error e =>
    cases hsr : P.shouldRetry e with
    | false =>
      exact Or.inr (Or.inl ⟨e, rfl, hsr, by simp [retryStep, hop, hsr, LoopState.finish]⟩)
    | true =>
      cases hhook : P.onPersistent429 with
      | none =>
        by_cases hbud : P.maxAttempts ≤ a
        · refine Or.inr (Or.inr (Or.inl ⟨e, rfl, hsr, Or.inl rfl, hbud, ?_⟩))
          simp [retryStep, hop, hsr, hhook, hbud, LoopState.finish]
        · refine Or.inr (Or.inr (Or.inr (Or.inl ⟨e, rfl, hsr, Or.inl rfl, by omega, ?_⟩)))
          simp [retryStep, hop, hsr, hhook, hbud, LoopState.finish]
      | some h =>
        cases hoff : offersEscalation P o (nextConsecutive429 c e) with
        | false =>
          by_cases hbud : P.maxAttempts ≤ a
          · refine Or.inr (Or.inr (Or.inl ⟨e, rfl, hsr, Or.inr hoff, hbud, ?_⟩))
            simp [retryStep, hop, hsr, hhook, hoff, hbud, LoopState.finish]
          · refine Or.inr (Or.inr (Or.inr (Or.inl ⟨e, rfl, hsr, Or.inr hoff, by omega, ?_⟩)))
            simp [retryStep, hop, hsr, hhook, hoff, hbud, LoopState.finish]
        | true =>
          cases hout : h P.authType e with
          | resolved t =>
            cases t with
            | some tgt =>
              refine Or.inr (Or.inr (Or.inr (Or.inr (Or.inl ⟨e, h, tgt, rfl, hsr, rfl, hoff, hout, ?_⟩))))
              simp [retryStep, hop, hsr, hhook, hoff, hout, LoopState.finish]
            | none =>
              by_cases hbud : P.maxAttempts ≤ a
              · refine Or.inr (Or.inr (Or.inr (Or.inr (Or.inr (Or.inl
                  ⟨e, h, rfl, hsr, rfl, hoff, Or.inl hout, hbud, ?_⟩)))))
                simp [retryStep, hop, hsr, hhook, hoff, hout, hbud, LoopState.finish]
              · refine Or.inr (Or.inr (Or.inr (Or.inr (Or.inr (Or.inr
                  ⟨e, h, rfl, hsr, rfl, hoff, Or.inl hout, by omega, ?_⟩)))))
                simp [retryStep, hop, hsr, hhook, hoff, hout, hbud, LoopState.finish]
          | raised =>
            by_cases hbud : P.maxAttempts ≤ a
            · refine Or.inr (Or.inr (Or.inr (Or.inr (Or.inr (Or.inl
                ⟨e, h, rfl, hsr, rfl, hoff, Or.inr hout, hbud, ?_⟩)))))
              simp [retryStep, hop, hsr, hhook, hoff, hout, hbud, LoopState.finish]
            · refine Or.inr (Or.inr (Or.inr (Or.inr (Or.inr (Or.inr
                ⟨e, h, rfl, hsr, rfl, hoff, Or.inr hout, by omega, ?_⟩)))))
              simp [retryStep, hop, hsr, hhook, hoff, hout, hbud, LoopState.finish]

/-- An escalation offer can only be made while no offer has been made yet. -/
theorem offered_false_of_offers {T : Type} {P : RetryPolicy T} {o : Bool} {c : Nat}
    (h : offersEscalation P o c = true) : o = false := by
  cases o
  · rfl
  · simp [offersEscalation] at h

/-- The counter update never increases the counter by more than one. -/
theorem nextConsecutive429_le (c : Nat) (e : Err) : nextConsecutive429 c e ≤ c + 1 := by
  unfold nextConsecutive429
  split <;> omega

/-- The hook-call history only grows: every run extends the calls already
recorded in the state. -/
theorem retryLoop_hookCalls_suffix {R T : Type} (P : RetryPolicy T) (op : Nat → Except Err R)
    (j : Nat → Rat) :
    ∀ (fuel : Nat) (s : LoopState),
      ∃ t, (retryLoop P op j fuel s).hookCalls = s.hookCalls.reverse ++ t := by
  intro fuel
  induction fuel with
  | zero =>
    intro s
    exact ⟨[], by simp [retryLoop_zero, LoopState.finish]⟩
  | succ fuel ih =>
    intro s
    rw [retryLoop_succ]
    rcases retryStep_cases P op j s with
      ⟨r, _, hstep⟩ | ⟨e, _, _, hstep⟩ | ⟨e, _, _, _, _, hstep⟩ | ⟨e, _, _, _, _, hstep⟩ |
      ⟨e, h, t, _, _, _, _, _, hstep⟩ | ⟨e, h, _, _, _, _, _, _, hstep⟩ |
      ⟨e, h, _, _, _, _, _, _, hstep⟩ <;> rw [hstep] <;> dsimp only
    · exact ⟨[], by simp⟩
    · exact ⟨[], by simp⟩
    · exact ⟨[], by simp⟩
    · exact ih _
    · obtain ⟨t1, ht1⟩ := ih (⟨1, 0, true, s.invocations + 1, (P.authType, e) :: s.hookCalls, s.baseDelays, s.delays, (s.attemptNumber, nextConsecutive429 s.consecutive429Count e) :: (s.attemptNumber, s.consecutive429Count) :: s.states⟩ : LoopState)
      exact ⟨(P.authType, e) :: t1, by rw [ht1]; simp⟩
    · exact ⟨[(P.authType, e)], by simp⟩
    · obtain ⟨t1, ht1⟩ := ih (⟨s.attemptNumber + 1, nextConsecutive429 s.consecutive429Count e, true, s.invocations + 1, (P.authType, e) :: s.hookCalls, min (P.initialDelayMs * 2 ^ (s.attemptNumber - 1)) P.maxDelayMs :: s.baseDelays, min (P.initialDelayMs * 2 ^ (s.attemptNumber - 1)) P.maxDelayMs * j s.delays.length :: s.delays, (s.attemptNumber, nextConsecutive429 s.consecutive429Count e) :: (s.attemptNumber, s.consecutive429Count) :: s.states⟩ : LoopState)
      exact ⟨(P.authType, e) :: t1, by rw [ht1]; simp⟩

/-- Once an escalation offer has been made, the hook is never called again:
the final hook-call history is exactly what the state already recorded. -/
theorem retryLoop_hookCalls_of_offered {R T : Type} (P : RetryPolicy T) (op : Nat → Except Err R)
    (j : Nat → Rat) :
    ∀ (fuel : Nat) (s : LoopState), s.escalationOffered = true →
      (retryLoop P op j fuel s).hookCalls = s.hookCalls.reverse := by
  intro fuel
  induction fuel with
  | zero =>
    intro s _
    simp [retryLoop_zero, LoopState.finish]
  | succ fuel ih =>
    intro s hoffd
    rw [retryLoop_succ]
    rcases retryStep_cases P op j s with
      ⟨r, _, hstep⟩ | ⟨e, _, _, hstep⟩ | ⟨e, _, _, _, _, hstep⟩ | ⟨e, _, _, _, _, hstep⟩ |
      ⟨e, h, t, _, _, _, hoff, _, hstep⟩ | ⟨e, h, _, _, _, hoff, _, _, hstep⟩ |
      ⟨e, h, _, _, _, hoff, _, _, hstep⟩
    · rw [hstep]
    · rw [hstep]
    · rw [hstep]
    · rw [hstep]
      exact ih _ hoffd
    · exact absurd (offered_false_of_offers hoff) (by simp [hoffd])
    · exact absurd (offered_false_of_offers hoff) (by simp [hoffd])
    · exact absurd (offered_false_of_offers hoff) (by simp [hoffd])

/-- At most one escalation offer is ever added to the history recorded in the
state, and none if an offer was already made. -/
theorem retryLoop_hookCalls_length {R T : Type} (P : RetryPolicy T) (op : Nat → Except Err R)
    (j : Nat → Rat) :
    ∀ (fuel : Nat) (s : LoopState),
      (retryLoop P op j fuel s).hookCalls.length ≤
        s.hookCalls.length + (if s.escalationOffered then 0 else 1) := by
  intro fuel
  induction fuel with
  | zero =>
    intro s
    have hz : (retryLoop P op j 0 s).hookCalls = s.hookCalls.reverse := by
      simp [retryLoop_zero, LoopState.finish]
    rw [hz]
    simp
  | succ fuel ih =>
    intro s
    rw [retryLoop_succ]
    rcases retryStep_cases P op j s with
      ⟨r, _, hstep⟩ | ⟨e, _, _, hstep⟩ | ⟨e, _, _, _, _, hstep⟩ | ⟨e, _, _, _, _, hstep⟩ |
      ⟨e, h, t, _, _, _, hoff, _, hstep⟩ | ⟨e, h, _, _, _, hoff, _, _, hstep⟩ |
      ⟨e, h, _, _, _, hoff, _, _, hstep⟩ <;> rw [hstep] <;> dsimp only
    · simp
    · simp
    · simp
    · exact ih _
    · have h0 := offered_false_of_offers hoff
      have h1 := ih (⟨1, 0, true, s.invocations + 1, (P.authType, e) :: s.hookCalls, s.baseDelays, s.delays, (s.attemptNumber, nextConsecutive429 s.consecutive429Count e) :: (s.attemptNumber, s.consecutive429Count) :: s.states⟩ : LoopState)
      simp at h1
      simp [h0]
      omega
    · have h0 := offered_false_of_offers hoff
      simp [h0]
    · have h0 := offered_false_of_offers hoff
      have h1 := ih (⟨s.attemptNumber + 1, nextConsecutive429 s.consecutive429Count e, true, s.invocations + 1, (P.authType, e) :: s.hookCalls, min (P.initialDelayMs * 2 ^ (s.attemptNumber - 1)) P.maxDelayMs :: s.baseDelays, min (P.initialDelayMs * 2 ^ (s.attemptNumber - 1)) P.maxDelayMs * j s.delays.length :: s.delays, (s.attemptNumber, nextConsecutive429 s.consecutive429Count e) :: (s.attemptNumber, s.consecutive429Count) :: s.states⟩ : LoopState)
      simp at h1
      simp [h0]
      omega

/-- Every state snapshot taken during a run keeps the consecutive rate-limit
count at or below the attempt number, provided the state invariant holds on
entry. -/
theorem retryLoop_states_le {R T : Type} (P : RetryPolicy T) (op : Nat → Except Err R)
    (j : Nat → Rat) :
    ∀ (fuel : Nat) (s : LoopState),
      s.consecutive429Count < s.attemptNumber →
      (∀ p ∈ s.states, p.2 ≤ p.1) →
      ∀ p ∈ (retryLoop P op j fuel s).states, p.2 ≤ p.1 := by
  intro fuel
  induction fuel with
  | zero =>
    intro s hlt hst p hp
    simp [retryLoop_zero, LoopState.finish] at hp
    exact hst p hp
  | succ fuel ih =>
    intro s hlt hst
    rw [retryLoop_succ]
    rcases retryStep_cases P op j s with
      ⟨r, _, hstep⟩ | ⟨e, _, _, hstep⟩ | ⟨e, _, _, _, _, hstep⟩ | ⟨e, _, _, _, _, hstep⟩ |
      ⟨e, h, t, _, _, _, _, _, hstep⟩ | ⟨e, h, _, _, _, _, _, _, hstep⟩ |
      ⟨e, h, _, _, _, _, _, _, hstep⟩ <;> rw [hstep] <;> dsimp only
    · intro p hp
      obtain ⟨p1, p2⟩ := p
      simp at hp ⊢
      rcases hp with hp | hp <;>
        first
          | exact hst _ hp
          | (obtain ⟨h1, h2⟩ := hp; omega)
    · intro p hp
      obtain ⟨p1, p2⟩ := p
      simp at hp ⊢
      rcases hp with hp | hp <;>
        first
          | exact hst _ hp
          | (obtain ⟨h1, h2⟩ := hp; omega)
    · intro p hp
      obtain ⟨p1, p2⟩ := p
      have hn := nextConsecutive429_le s.consecutive429Count e
      simp at hp ⊢
      rcases hp with hp | hp | hp <;>
        first
          | exact hst _ hp
          | (obtain ⟨h1, h2⟩ := hp; omega)
    · have hn := nextConsecutive429_le s.consecutive429Count e
      refine ih _ (by dsimp only; omega) ?_
      intro p hp
      obtain ⟨p1, p2⟩ := p
      simp at hp ⊢
      rcases hp with hp | hp | hp <;>
        first
          | exact hst _ hp
          | (obtain ⟨h1, h2⟩ := hp; omega)
    · have hn := nextConsecutive429_le s.consecutive429Count e
      refine ih _ (by dsimp only; omega) ?_
      intro p hp
      obtain ⟨p1, p2⟩ := p
      simp at hp ⊢
      rcases hp with hp | hp | hp <;>
        first
          | exact hst _ hp
          | (obtain ⟨h1, h2⟩ := hp; omega)
    · intro p hp
      obtain ⟨p1, p2⟩ := p
      have hn := nextConsecutive429_le s.consecutive429Count e
      simp at hp ⊢
      rcases hp with hp | hp | hp <;>
        first
          | exact hst _ hp
          | (obtain ⟨h1, h2⟩ := hp; omega)
    · have hn := nextConsecutive429_le s.consecutive429Count e
      refine ih _ (by dsimp only; omega) ?_
      intro p hp
      obtain ⟨p1, p2⟩ := p
      simp at hp ⊢
      rcases hp with hp | hp | hp <;>
        first
          | exact hst _ hp
          | (obtain ⟨h1, h2⟩ := hp; omega)

/-- With an auth mode that disallows escalation, one loop iteration behaves
exactly as under the same policy with no hook configured. -/
theorem retryStep_eq_of_noPermit {R T : Type} (P Q : RetryPolicy T) (op : Nat → Except Err R)
    (j : Nat → Rat) (hmax : Q.maxAttempts = P.maxAttempts)
    (hinit : Q.initialDelayMs = P.initialDelayMs) (hmaxd : Q.maxDelayMs = P.maxDelayMs)
    (hsr : Q.shouldRetry = P.shouldRetry) (hnone : Q.onPersistent429 = none)
    (hperm : P.authType.permitsEscalation = false) (s : LoopState) :
    retryStep P op j s = retryStep Q op j s := by
  obtain ⟨a, c, o, i, hc, bd, dl, st⟩ := s
  cases hop : op i with
  | ok r => simp [retryStep, hop]
  | error e =>
    cases hsrv : P.shouldRetry e with
    | false => simp [retryStep, hop, hsr, hsrv]
    | true =>
      cases hhook : P.onPersistent429 with
      | none => simp [retryStep, hop, hsr, hsrv, hhook, hnone, hmax, hinit, hmaxd]
      | some h =>
        simp [retryStep, hop, hsr, hsrv, hhook, hnone, hmax, hinit, hmaxd,
          offersEscalation, hperm]

/-- With an auth mode that disallows escalation, a run behaves exactly as
under the same policy with no hook configured. -/
theorem retryLoop_eq_of_noPermit {R T : Type} (P Q : RetryPolicy T) (op : Nat → Except Err R)
    (j : Nat → Rat) (hmax : Q.maxAttempts = P.maxAttempts)
    (hinit : Q.initialDelayMs = P.initialDelayMs) (hmaxd : Q.maxDelayMs = P.maxDelayMs)
    (hsr : Q.shouldRetry = P.shouldRetry) (hnone : Q.onPersistent429 = none)
    (hperm : P.authType.permitsEscalation = false) :
    ∀ (fuel : Nat) (s : LoopState), retryLoop P op j fuel s = retryLoop Q op j fuel s := by
  intro fuel
  induction fuel with
  | zero => intro s; rfl
  | succ fuel ih =>
    intro s
    rw [retryLoop_succ, retryLoop_succ,
      retryStep_eq_of_noPermit P Q op j hmax hinit hmaxd hsr hnone hperm s]
    cases retryStep Q op j s with
    | done r => rfl
    | next s1 => exact ih s1

/-- Without a configured hook, a run makes no hook calls beyond those already
recorded in the state. -/
theorem retryLoop_hookCalls_of_none {R T : Type} (P : RetryPolicy T) (op : Nat → Except Err R)
    (j : Nat → Rat) (hnone : P.onPersistent429 = none) :
    ∀ (fuel : Nat) (s : LoopState),
      (retryLoop P op j fuel s).hookCalls = s.hookCalls.reverse := by
  intro fuel
  induction fuel with
  | zero =>
    intro s
    simp [retryLoop_zero, LoopState.finish]
  | succ fuel ih =>
    intro s
    rw [retryLoop_succ]
    rcases retryStep_cases P op j s with
      ⟨r, _, hstep⟩ | ⟨e, _, _, hstep⟩ | ⟨e, _, _, _, _, hstep⟩ | ⟨e, _, _, _, _, hstep⟩ |
      ⟨e, h, t, _, _, hsome, _, _, hstep⟩ | ⟨e, h, _, _, hsome, _, _, _, hstep⟩ |
      ⟨e, h, _, _, hsome, _, _, _, hstep⟩
    · rw [hstep]
    · rw [hstep]
    · rw [hstep]
    · rw [hstep]
      exact ih _
    · exact absurd (hnone ▸ hsome) (by simp)
    · exact absurd (hnone ▸ hsome) (by simp)
    · exact absurd (hnone ▸ hsome) (by simp)

/-- One iteration under a hook that only declines or throws agrees — on the
result, attempt counters, invocation count, delays and state snapshots — with
one iteration under the same policy with no hook configured; only the
hook-call history and the offered flag may differ. -/
theorem retryStep_agrees_of_decline {R T : Type} (P Q : RetryPolicy T) (op : Nat → Except Err R)
    (j : Nat → Rat) (hmax : Q.maxAttempts = P.maxAttempts)
    (hinit : Q.initialDelayMs = P.initialDelayMs) (hmaxd : Q.maxDelayMs = P.maxDelayMs)
    (hsr : Q.shouldRetry = P.shouldRetry) (hnone : Q.onPersistent429 = none)
    (h : AuthMode → Err → HookOutcome T) (hhook : P.onPersistent429 = some h)
    (hdecl : ∀ (a : AuthMode) (e : Err),
      h a e = HookOutcome.resolved none ∨ h a e = HookOutcome.raised)
    (s v : LoopState) (hagree : s.agreesCore v) :
    (retryStep P op j s).agrees (retryStep Q op j v) := by
  obtain ⟨a, c, o, i, hc, bd, dl, st⟩ := s
  obtain ⟨a', c', o', i', hc', bd', dl', st'⟩ := v
  obtain ⟨h1, h2, h3, h4, h5, h6⟩ := hagree
  dsimp only at h1 h2 h3 h4 h5 h6
  subst h1 h2 h3 h4 h5 h6
  cases hop : op i with
  | ok r =>
    simp [retryStep, hop, LoopState.finish, StepRes.agrees, RetryResult.agreesCore]
  | error e =>
    cases hsrv : P.shouldRetry e with
    | false =>
      simp [retryStep, hop, hsr, hsrv, LoopState.finish, StepRes.agrees,
        RetryResult.agreesCore]
    | true =>
      cases hoffv : offersEscalation P o (nextConsecutive429 c e) with
      | false =>
        by_cases hbud : P.maxAttempts ≤ a <;>
          simp [retryStep, hop, hsr, hsrv, hhook, hnone, hmax, hinit, hmaxd, hoffv, hbud,
            LoopState.finish, StepRes.agrees, RetryResult.agreesCore, LoopState.agreesCore]
      | true =>
        rcases hdecl P.authType e with hd | hd <;>
          by_cases hbud : P.maxAttempts ≤ a <;>
            simp [retryStep, hop, hsr, hsrv, hhook, hnone, hmax, hinit, hmaxd, hoffv, hd,
              hbud, LoopState.finish, StepRes.agrees, RetryResult.agreesCore,
              LoopState.agreesCore]

/-- A run under a hook that only declines or throws agrees — on the result,
invocation count, delays and state snapshots — with the run under the same
policy with no hook configured. -/
theorem retryLoop_agrees_of_decline {R T : Type} (P Q : RetryPolicy T) (op : Nat → Except Err R)
    (j : Nat → Rat) (hmax : Q.maxAttempts = P.maxAttempts)
    (hinit : Q.initialDelayMs = P.initialDelayMs) (hmaxd : Q.maxDelayMs = P.maxDelayMs)
    (hsr : Q.shouldRetry = P.shouldRetry) (hnone : Q.onPersistent429 = none)
    (h : AuthMode → Err → HookOutcome T) (hhook : P.onPersistent429 = some h)
    (hdecl : ∀ (a : AuthMode) (e : Err),
      h a e = HookOutcome.resolved none ∨ h a e = HookOutcome.raised) :
    ∀ (fuel : Nat) (s v : LoopState), s.agreesCore v →
      (retryLoop P op j fuel s).agreesCore (retryLoop Q op j fuel v) := by
  intro fuel
  induction fuel with
  | zero =>
    intro s v hagree
    obtain ⟨h1, h2, h3, h4, h5, h6⟩ := hagree
    rw [retryLoop_zero, retryLoop_zero]
    exact ⟨rfl, h3, by simp [LoopState.finish, h4], by simp [LoopState.finish, h5],
      by simp [LoopState.finish, h6]⟩
  | succ fuel ih =>
    intro s v hagree
    have hst := retryStep_agrees_of_decline P Q op j hmax hinit hmaxd hsr hnone h hhook
      hdecl s v hagree
    rw [retryLoop_succ, retryLoop_succ]
    cases hP : retryStep P op j s with
    | done r =>
      cases hQ : retryStep Q op j v with
      | done q =>
        rw [hP, hQ] at hst
        exact hst
      | next u =>
        rw [hP, hQ] at hst
        exact hst.elim
    | next u =>
      cases hQ : retryStep Q op j v with
      | done q =>
        rw [hP, hQ] at hst
        exact hst.elim
      | next w =>
        rw [hP, hQ] at hst
        exact ih u w hst

/-- Characterization of a run with no configured hook over an operation that
fails retryably on every invocation: the loop performs exactly the remaining
attempts, propagates the error of the last one, and schedules one delay per
retry following the capped exponential backoff formula with one jitter factor
per delay. -/
theorem retryLoop_none_allFail {R T : Type} (P : RetryPolicy T) (op : Nat → Except Err R)
    (j : Nat → Rat) (E : Nat → Err) (hnone : P.onPersistent429 = none)
    (hop : ∀ k, op k = Except.error (E k)) (hre : ∀ k, P.shouldRetry (E k) = true) :
    ∀ (fuel : Nat) (s : LoopState),
      1 ≤ s.attemptNumber → s.attemptNumber ≤ P.maxAttempts →
      P.maxAttempts - s.attemptNumber < fuel →
      s.delays.length = s.baseDelays.length →
      (retryLoop P op j fuel s).result =
        Except.error (E (s.invocations + (P.maxAttempts - s.attemptNumber))) ∧
      (retryLoop P op j fuel s).invocations =
        s.invocations + (P.maxAttempts - s.attemptNumber) + 1 ∧
      (retryLoop P op j fuel s).baseDelays =
        s.baseDelays.reverse ++ (List.range (P.maxAttempts - s.attemptNumber)).map
          (fun n => min (P.initialDelayMs * 2 ^ (s.attemptNumber - 1 + n)) P.maxDelayMs) ∧
      (retryLoop P op j fuel s).delays =
        s.delays.reverse ++ (List.range (P.maxAttempts - s.attemptNumber)).map
          (fun n => min (P.initialDelayMs * 2 ^ (s.attemptNumber - 1 + n)) P.maxDelayMs *
            j (s.baseDelays.length + n)) := by
  intro fuel
  induction fuel with
  | zero =>
    intro s h1 h2 h3 h4
    omega
  | succ fuel ih =>
    intro s h1 h2 h3 h4
    rw [retryLoop_succ]
    rcases retryStep_cases P op j s with
      ⟨r, hopc, hstep⟩ | ⟨e, hopc, hsrc, hstep⟩ | ⟨e, hopc, hsrc, _, hbud, hstep⟩ |
      ⟨e, hopc, hsrc, _, hbud, hstep⟩ | ⟨e, h, t, _, _, hsome, _, _, hstep⟩ |
      ⟨e, h, _, _, hsome, _, _, _, hstep⟩ | ⟨e, h, _, _, hsome, _, _, _, hstep⟩
    · rw [hop] at hopc
      cases hopc
    · rw [hop] at hopc
      injection hopc with he
      rw [← he, hre] at hsrc
      cases hsrc
    · -- budget exhausted: attemptNumber = maxAttempts
      have ha : P.maxAttempts = s.attemptNumber := by omega
      have hz : P.maxAttempts - s.attemptNumber = 0 := by omega
      rw [hop] at hopc
      injection hopc with he
      rw [hstep]
      subst he
      simp [hz]
    · -- budget remains: one delayed retry, then induction
      have ha : s.attemptNumber < P.maxAttempts := hbud
      rw [hop] at hopc
      injection hopc with he
      rw [hstep]
      dsimp only
      have hk : ∃ k, P.maxAttempts - s.attemptNumber = k + 1 :=
        ⟨P.maxAttempts - s.attemptNumber - 1, by omega⟩
      obtain ⟨k, hkk⟩ := hk
      have ihres := ih
        (⟨s.attemptNumber + 1, nextConsecutive429 s.consecutive429Count e, s.escalationOffered,
          s.invocations + 1, s.hookCalls,
          min (P.initialDelayMs * 2 ^ (s.attemptNumber - 1)) P.maxDelayMs :: s.baseDelays,
          min (P.initialDelayMs * 2 ^ (s.attemptNumber - 1)) P.maxDelayMs * j s.delays.length :: s.delays,
          (s.attemptNumber, nextConsecutive429 s.consecutive429Count e) ::
            (s.attemptNumber, s.consecutive429Count) :: s.states⟩ : LoopState)
        (by dsimp only; omega) (by dsimp only; omega) (by dsimp only; omega)
        (by dsimp only; simp [h4])
      dsimp only at ihres
      obtain ⟨ihr, ihi, ihb, ihd⟩ := ihres
      refine ⟨?_, ?_, ?_, ?_⟩
      · rw [ihr]
        congr 2
        omega
      · rw [ihi]
        omega
      · rw [ihb]
        have hk2 : P.maxAttempts - (s.attemptNumber + 1) = k := by omega
        rw [hkk, hk2, List.range_succ_eq_map, List.map_cons, List.map_map, List.reverse_cons,
          List.append_assoc, List.singleton_append]
        refine congrArg (fun x => s.baseDelays.reverse ++ x) ?_
        refine congrArg₂ List.cons ?_ ?_
        · rw [Nat.add_zero]
        · refine List.map_congr_left ?_
          intro n _
          simp only [Function.comp_apply]
          have hx : s.attemptNumber + 1 - 1 + n = s.attemptNumber - 1 + Nat.succ n := by omega
          rw [hx]
      · rw [ihd]
        have hk2 : P.maxAttempts - (s.attemptNumber + 1) = k := by omega
        rw [hkk, hk2, List.range_succ_eq_map, List.map_cons, List.map_map, List.reverse_cons,
          List.append_assoc, List.singleton_append]
        refine congrArg (fun x => s.delays.reverse ++ x) ?_
        refine congrArg₂ List.cons ?_ ?_
        · simp only [Nat.add_zero]
          rw [h4]
        · refine List.map_congr_left ?_
          intro n _
          simp only [Function.comp_apply, List.length_cons]
          have hx : s.attemptNumber + 1 - 1 + n = s.attemptNumber - 1 + Nat.succ n := by omega
          have hy : s.baseDelays.length + 1 + n = s.baseDelays.length + Nat.succ n := by omega
          rw [hx, hy]
    · exact absurd (hnone ▸ hsome) (by simp)
    · exact absurd (hnone ▸ hsome) (by simp)
    · exact absurd (hnone ▸ hsome) (by simp)

/-- Unfold one iteration that finishes, for any positive fuel. -/
theorem retryLoop_done {R T : Type} (P : RetryPolicy T) (op : Nat → Except Err R)
    (j : Nat → Rat) {fuel : Nat} (hf : 0 < fuel) {s : LoopState} {r : RetryResult R}
    (hstep : retryStep P op j s = StepRes.done r) :
    retryLoop P op j fuel s = r := by
  obtain ⟨f, rfl⟩ : ∃ f, fuel = f + 1 := ⟨fuel - 1, by omega⟩
  rw [retryLoop_succ, hstep]

/-- Unfold one iteration that continues, for any positive fuel. -/
theorem retryLoop_next {R T : Type} (P : RetryPolicy T) (op : Nat → Except Err R)
    (j : Nat → Rat) {fuel : Nat} (hf : 0 < fuel) {s s1 : LoopState}
    (hstep : retryStep P op j s = StepRes.next s1) :
    retryLoop P op j fuel s = retryLoop P op j (fuel - 1) s1 := by
  obtain ⟨f, rfl⟩ : ∃ f, fuel = f + 1 := ⟨fuel - 1, by omega⟩
  rw [retryLoop_succ, hstep]
  simp

/-! ## C1: the escalation flow on two consecutive rate-limit failures -/

/-- C1.  For every invocation of `retryWithBackoff` (with an attempt budget
that lets the two failures happen, `maxAttempts ≥ 2`) under an auth mode that
permits escalation, a configured `onPersistent429` hook and the default
retryability classification, where the operation fails with rate-limit (429)
errors exactly twice and then succeeds and the hook resolves to a non-null
target: the hook is invoked exactly once, with the auth mode and the second
rate-limit error as arguments; the attempt state is reset to
`attemptNumber = 1, consecutiveRateLimitCount = 0` and the operation is
retried immediately — only one delay is ever scheduled, none for the
escalation cycle — so the operation is invoked exactly 3 times and the
invocation returns the success value. -/
theorem retry_escalation_accepted_flow {R T : Type} (P : RetryPolicy T)
    (op : Nat → Except Err R) (j : Nat → Rat) (h : AuthMode → Err → HookOutcome T)
    (e1 e2 : Err) (r : R) (tgt : T)
    (hperm : P.authType.permitsEscalation = true)
    (hhook : P.onPersistent429 = some h)
    (hM : 2 ≤ P.maxAttempts)
    (hsr : P.shouldRetry = defaultShouldRetry)
    (he1 : e1.status = some 429) (he2 : e2.status = some 429)
    (hop0 : op 0 = Except.error e1) (hop1 : op 1 = Except.error e2)
    (hop2 : op 2 = Except.ok r)
    (hacc : h P.authType e2 = HookOutcome.resolved (some tgt)) :
    (retryWithBackoff P op j).result = Except.ok r ∧
    (retryWithBackoff P op j).invocations = 3 ∧
    (retryWithBackoff P op j).hookCalls = [(P.authType, e2)] ∧
    (retryWithBackoff P op j).delays.length = 1 ∧
    (retryWithBackoff P op j).states = [(1, 0), (1, 1), (2, 1), (2, 2), (1, 0)] := by
  have hb1 : retryStep P op j initLoopState = StepRes.next
      ⟨2, 1, false, 1, [], [min P.initialDelayMs P.maxDelayMs],
        [min P.initialDelayMs P.maxDelayMs * j 0], [(1, 1), (1, 0)]⟩ := by
    have hnb : ¬ (P.maxAttempts ≤ 1) := by omega
    simp [retryStep, initLoopState, hop0, hsr, defaultShouldRetry, he1, nextConsecutive429,
      isRateLimitError, offersEscalation, hhook, hnb]
  have hb2 : retryStep P op j
      ⟨2, 1, false, 1, [], [min P.initialDelayMs P.maxDelayMs],
        [min P.initialDelayMs P.maxDelayMs * j 0], [(1, 1), (1, 0)]⟩ = StepRes.next
      ⟨1, 0, true, 2, [(P.authType, e2)], [min P.initialDelayMs P.maxDelayMs],
        [min P.initialDelayMs P.maxDelayMs * j 0], [(2, 2), (2, 1), (1, 1), (1, 0)]⟩ := by
    simp [retryStep, hop1, hsr, defaultShouldRetry, he2, nextConsecutive429,
      isRateLimitError, offersEscalation, hhook, hperm, hacc]
  have hb3 : retryStep P op j
      ⟨1, 0, true, 2, [(P.authType, e2)], [min P.initialDelayMs P.maxDelayMs],
        [min P.initialDelayMs P.maxDelayMs * j 0], [(2, 2), (2, 1), (1, 1), (1, 0)]⟩ =
      StepRes.done
      ⟨Except.ok r, 3, [(P.authType, e2)], [min P.initialDelayMs P.maxDelayMs],
        [min P.initialDelayMs P.maxDelayMs * j 0],
        [(1, 0), (1, 1), (2, 1), (2, 2), (1, 0)]⟩ := by
    simp [retryStep, hop2, LoopState.finish]
  unfold retryWithBackoff
  rw [retryLoop_next P op j (by omega) hb1, retryLoop_next P op j (by omega) hb2,
    retryLoop_done P op j (by omega) hb3]
  simp

/-- C1 witness: the escalation flow at a concrete policy, operation, hook and
jitter stream. -/
theorem retry_escalation_accepted_flow_witness :
    (w1P.authType.permitsEscalation = true ∧ w1P.onPersistent429 = some wHookAccept ∧
      2 ≤ w1P.maxAttempts ∧ w1P.shouldRetry = defaultShouldRetry ∧
      w1Op 0 = Except.error { status := some 429, id := 0 } ∧
      w1Op 1 = Except.error { status := some 429, id := 1 } ∧
      w1Op 2 = Except.ok 42 ∧
      wHookAccept w1P.authType { status := some 429, id := 1 } =
        HookOutcome.resolved (some 7)) ∧
    ((retryWithBackoff w1P w1Op wJone).result = Except.ok 42 ∧
      (retryWithBackoff w1P w1Op wJone).invocations = 3 ∧
      (retryWithBackoff w1P w1Op wJone).hookCalls =
        [(w1P.authType, { status := some 429, id := 1 })] ∧
      (retryWithBackoff w1P w1Op wJone).delays.length = 1 ∧
      (retryWithBackoff w1P w1Op wJone).states = [(1, 0), (1, 1), (2, 1), (2, 2), (1, 0)]) :=
  ⟨⟨rfl, rfl, by decide, rfl, rfl, rfl, rfl, rfl⟩,
    retry_escalation_accepted_flow w1P w1Op wJone wHookAccept
      { status := some 429, id := 0 } { status := some 429, id := 1 } 42 7
      rfl rfl (by decide) rfl rfl rfl rfl rfl rfl rfl⟩

/-! ## C2: budget exhaustion -/

/-- C2 counterexample: with `maxAttempts = 3`, an operation that fails with a
retryable (rate-limit) error on every attempt, an OAuth auth mode and a hook
that accepts escalation, the operation is invoked 5 times, not
`maxAttempts = 3` — an accepted escalation grants a fresh budget, so the claim
does not hold for every policy. -/
theorem retry_budget_counterexample :
    c2P.maxAttempts = 3 ∧
    c2P.shouldRetry = defaultShouldRetry ∧
    (∀ k, wOp429 k = Except.error { status := some 429, id := k }) ∧
    (∀ k, c2P.shouldRetry (Err.mk (some 429) k) = true) ∧
    (retryWithBackoff c2P wOp429 wJone).invocations = 5 ∧
    (retryWithBackoff c2P wOp429 wJone).invocations ≠ c2P.maxAttempts :=
  ⟨rfl, rfl, fun _ => rfl, fun _ => rfl, by decide, by decide⟩

/-- C2 (amended).  For every policy with `maxAttempts = M ≥ 1` in which no
escalation can be accepted (no hook configured, an auth mode that disallows
escalation, or a hook that only declines or throws), and every operation that
fails with a retryable error on every attempt, `retryWithBackoff` invokes the
operation exactly `M` times and then fails with exactly the error produced by
the `M`-th invocation, propagated verbatim. -/
theorem retry_budget_exhaustion {R T : Type} (P : RetryPolicy T) (op : Nat → Except Err R)
    (j : Nat → Rat) (F : Nat → Err)
    (hM : 1 ≤ P.maxAttempts)
    (hop : ∀ k, op k = Except.error (F k))
    (hre : ∀ k, P.shouldRetry (F k) = true)
    (hnoesc : P.onPersistent429 = none ∨ P.authType.permitsEscalation = false ∨
      (∃ h, P.onPersistent429 = some h ∧
        ∀ (a : AuthMode) (e : Err),
          h a e = HookOutcome.resolved none ∨ h a e = HookOutcome.raised)) :
    (retryWithBackoff P op j).invocations = P.maxAttempts ∧
    (retryWithBackoff P op j).result = Except.error (F (P.maxAttempts - 1)) := by
  have hbase : ∀ (Q : RetryPolicy T), Q.maxAttempts = P.maxAttempts →
      Q.shouldRetry = P.shouldRetry → Q.onPersistent429 = none → ∀ fuel,
      P.maxAttempts - 1 < fuel →
      (retryLoop Q op j fuel initLoopState).invocations = P.maxAttempts ∧
      (retryLoop Q op j fuel initLoopState).result =
        Except.error (F (P.maxAttempts - 1)) := by
    intro Q hQM hQsr hQnone fuel hfuel
    have hres := retryLoop_none_allFail Q op j F hQnone hop
      (fun k => by rw [hQsr]; exact hre k) fuel initLoopState
      (by simp [initLoopState]) (by simp [initLoopState]; omega)
      (by simp [initLoopState]; omega) (by simp [initLoopState])
    obtain ⟨hr, hi, _, _⟩ := hres
    constructor
    · rw [hi]
      simp [initLoopState, hQM]
      omega
    · rw [hr]
      simp [initLoopState, hQM]
  rcases hnoesc with hnone | hkey | ⟨h, hhook, hdecl⟩
  · exact hbase P rfl rfl hnone (2 * P.maxAttempts + 1) (by omega)
  · unfold retryWithBackoff
    rw [retryLoop_eq_of_noPermit P { P with onPersistent429 := none } op j rfl rfl rfl rfl
      rfl hkey (2 * P.maxAttempts + 1) initLoopState]
    exact hbase { P with onPersistent429 := none } rfl rfl rfl (2 * P.maxAttempts + 1)
      (by omega)
  · have hagree := retryLoop_agrees_of_decline P { P with onPersistent429 := none } op j
      rfl rfl rfl rfl rfl h hhook hdecl (2 * P.maxAttempts + 1) initLoopState initLoopState
      ⟨rfl, rfl, rfl, rfl, rfl, rfl⟩
    obtain ⟨ha1, ha2, _, _, _⟩ := hagree
    have hq := hbase { P with onPersistent429 := none } rfl rfl rfl (2 * P.maxAttempts + 1)
      (by omega)
    exact ⟨by rw [retryWithBackoff, ha2]; exact hq.1, by rw [retryWithBackoff, ha1]; exact hq.2⟩

/-- C2 witness: budget exhaustion at a concrete hookless policy with
`maxAttempts = 3` over an always-failing operation. -/
theorem retry_budget_exhaustion_witness :
    (1 ≤ w2P.maxAttempts ∧ (∀ k, wOp500 k = Except.error { status := some 500, id := k }) ∧
      (∀ k, w2P.shouldRetry (Err.mk (some 500) k) = true) ∧ w2P.onPersistent429 = none) ∧
    ((retryWithBackoff w2P wOp500 wJone).invocations = w2P.maxAttempts ∧
      (retryWithBackoff w2P wOp500 wJone).result =
        Except.error (Err.mk (some 500) (w2P.maxAttempts - 1))) :=
  ⟨⟨by decide, fun _ => rfl, fun _ => rfl, rfl⟩,
    retry_budget_exhaustion w2P wOp500 wJone (fun k => Err.mk (some 500) k) (by decide)
      (fun _ => rfl) (fun _ => rfl) (Or.inl rfl)⟩

/-! ## C3: API-key-style auth modes never escalate; permitting modes do -/

/-- C3.  For every invocation under an auth mode that disallows escalation
(API-key style), the hook is never invoked — whatever the failure pattern —
and the whole run is identical to the run of the same policy with no hook
configured (plain retry until the budget is exhausted).  Conversely, for every
policy whose auth mode permits escalation, with a configured hook, budget at
least 2 and default classification, an operation that keeps failing with
rate-limit errors does trigger escalation: the hook is invoked, exactly once,
with the auth mode and the second consecutive rate-limit error. -/
theorem retry_apiKey_no_escalation {R T : Type}
    (P : RetryPolicy T) (op : Nat → Except Err R) (j : Nat → Rat)
    (hkey : P.authType.permitsEscalation = false)
    (Q : RetryPolicy T) (opq : Nat → Except Err R) (jq : Nat → Rat)
    (hq : AuthMode → Err → HookOutcome T) (F : Nat → Err)
    (hperm : Q.authType.permitsEscalation = true)
    (hqhook : Q.onPersistent429 = some hq)
    (hqM : 2 ≤ Q.maxAttempts)
    (hqsr : Q.shouldRetry = defaultShouldRetry)
    (hqE : ∀ k, (F k).status = some 429)
    (hqop : ∀ k, opq k = Except.error (F k)) :
    (retryWithBackoff P op j).hookCalls = [] ∧
    retryWithBackoff P op j =
      retryWithBackoff ({ P with onPersistent429 := none } : RetryPolicy T) op j ∧
    (retryWithBackoff Q opq jq).hookCalls = [(Q.authType, F 1)] := by
  have heq : retryWithBackoff P op j =
      retryWithBackoff ({ P with onPersistent429 := none } : RetryPolicy T) op j := by
    unfold retryWithBackoff
    exact retryLoop_eq_of_noPermit P { P with onPersistent429 := none } op j rfl rfl rfl rfl
      rfl hkey (2 * P.maxAttempts + 1) initLoopState
  have hempty : (retryWithBackoff P op j).hookCalls = [] := by
    rw [heq]
    unfold retryWithBackoff
    rw [retryLoop_hookCalls_of_none { P with onPersistent429 := none } op j rfl
      (2 * P.maxAttempts + 1) initLoopState]
    simp [initLoopState]
  refine ⟨hempty, heq, ?_⟩
  have hb1 : retryStep Q opq jq initLoopState = StepRes.next
      ⟨2, 1, false, 1, [], [min Q.initialDelayMs Q.maxDelayMs],
        [min Q.initialDelayMs Q.maxDelayMs * jq 0], [(1, 1), (1, 0)]⟩ := by
    have hnb : ¬ (Q.maxAttempts ≤ 1) := by omega
    simp [retryStep, initLoopState, hqop 0, hqsr, defaultShouldRetry, hqE 0,
      nextConsecutive429, isRateLimitError, offersEscalation, hqhook, hnb]
  unfold retryWithBackoff
  rw [retryLoop_next Q opq jq (by omega) hb1]
  rcases retryStep_cases Q opq jq
      ⟨2, 1, false, 1, [], [min Q.initialDelayMs Q.maxDelayMs],
        [min Q.initialDelayMs Q.maxDelayMs * jq 0], [(1, 1), (1, 0)]⟩ with
    ⟨r1, hopc, hstep⟩ | ⟨e, hopc, hsrc, hstep⟩ | ⟨e, hopc, hsrc, hnooff, hbud, hstep⟩ |
    ⟨e, hopc, hsrc, hnooff, hbud, hstep⟩ | ⟨e, hh, t, hopc, hsrc, hsome, hoffv, hout, hstep⟩ |
    ⟨e, hh, hopc, hsrc, hsome, hoffv, hout, hbud, hstep⟩ |
    ⟨e, hh, hopc, hsrc, hsome, hoffv, hout, hbud, hstep⟩
  · rw [hqop 1] at hopc
    cases hopc
  · rw [hqop 1] at hopc
    injection hopc with he
    rw [← he, hqsr] at hsrc
    simp [defaultShouldRetry, hqE 1] at hsrc
  · rw [hqop 1] at hopc
    injection hopc with he
    rcases hnooff with hn | hoffF
    · rw [hqhook] at hn
      cases hn
    · rw [← he] at hoffF
      simp [offersEscalation, hperm, nextConsecutive429, isRateLimitError, hqE 1] at hoffF
  · rw [hqop 1] at hopc
    injection hopc with he
    rcases hnooff with hn | hoffF
    · rw [hqhook] at hn
      cases hn
    · rw [← he] at hoffF
      simp [offersEscalation, hperm, nextConsecutive429, isRateLimitError, hqE 1] at hoffF
  · rw [hqop 1] at hopc
    injection hopc with he
    rw [retryLoop_next Q opq jq (by omega) hstep,
      retryLoop_hookCalls_of_offered Q opq jq _ _ rfl]
    simp [he]
  · rw [hqop 1] at hopc
    injection hopc with he
    rw [retryLoop_done Q opq jq (by omega) hstep]
    simp [he]
  · rw [hqop 1] at hopc
    injection hopc with he
    rw [retryLoop_next Q opq jq (by omega) hstep,
      retryLoop_hookCalls_of_offered Q opq jq _ _ rfl]
    simp [he]

/-- C3 witness: an API-key policy never calls the accepting hook over an
always-rate-limited operation, while the same setup under OAuth calls it with
the second consecutive rate-limit error. -/
theorem retry_apiKey_no_escalation_witness :
    (w3P.authType.permitsEscalation = false ∧ w3Q.authType.permitsEscalation = true ∧
      w3Q.onPersistent429 = some wHookAccept ∧ 2 ≤ w3Q.maxAttempts ∧
      w3Q.shouldRetry = defaultShouldRetry ∧
      (∀ k, (Err.mk (some 429) k).status = some 429) ∧
      (∀ k, wOp429 k = Except.error (Err.mk (some 429) k))) ∧
    ((retryWithBackoff w3P wOp429 wJone).hookCalls = [] ∧
      retryWithBackoff w3P wOp429 wJone =
        retryWithBackoff ({ w3P with onPersistent429 := none } : RetryPolicy Nat) wOp429 wJone ∧
      (retryWithBackoff w3Q wOp429 wJone).hookCalls =
        [(w3Q.authType, Err.mk (some 429) 1)]) :=
  ⟨⟨rfl, rfl, rfl, by decide, rfl, fun _ => rfl, fun _ => rfl⟩,
    retry_apiKey_no_escalation w3P wOp429 wJone rfl w3Q wOp429 wJone wHookAccept
      (fun k => Err.mk (some 429) k) rfl rfl (by decide) rfl (fun _ => rfl) (fun _ => rfl)⟩

/-! ## C4: the hook is invoked at most once per invocation -/

/-- C4.  Within a single invocation of `retryWithBackoff`, the
`onPersistent429` escalation hook is invoked at most once, regardless of how
many further rate-limit failures occur after the first offer, whether that
offer was accepted, declined or threw. -/
theorem retry_hook_at_most_once {R T : Type} (P : RetryPolicy T) (op : Nat → Except Err R)
    (j : Nat → Rat) : (retryWithBackoff P op j).hookCalls.length ≤ 1 := by
  have hlen := retryLoop_hookCalls_length P op j (2 * P.maxAttempts + 1) initLoopState
  simpa [initLoopState] using hlen

/-! ## C5: the consecutive rate-limit counter -/

/-- C5.  The consecutive rate-limit counter is incremented only by failures
classified as rate-limit (429) errors and is reset to 0 by any non-rate-limit
failure; in every invocation every observed snapshot keeps the counter at or
below the attempt number; and in a run where a non-rate-limit failure is
interleaved before two rate-limit failures, escalation fires only once two
consecutive rate-limit failures have occurred after the reset — the hook is
invoked exactly once, with the second consecutive rate-limit error — and the
accepted escalation resets the state to `(attemptNumber, count) = (1, 0)`, as
the final snapshot shows. -/
theorem retry_consecutive429_invariant {R T : Type} (P : RetryPolicy T)
    (op : Nat → Except Err R) (j : Nat → Rat) (h : AuthMode → Err → HookOutcome T)
    (e1 e2 e3 : Err) (r : R) (tgt : T)
    (hperm : P.authType.permitsEscalation = true)
    (hhook : P.onPersistent429 = some h)
    (hM : 3 ≤ P.maxAttempts)
    (hsr : P.shouldRetry = defaultShouldRetry)
    (he1r : defaultShouldRetry e1 = true) (he1n : isRateLimitError e1 = false)
    (he2 : e2.status = some 429) (he3 : e3.status = some 429)
    (hop0 : op 0 = Except.error e1) (hop1 : op 1 = Except.error e2)
    (hop2 : op 2 = Except.error e3) (hop3 : op 3 = Except.ok r)
    (hacc : h P.authType e3 = HookOutcome.resolved (some tgt)) :
    (∀ (c : Nat) (e : Err), isRateLimitError e = true → nextConsecutive429 c e = c + 1) ∧
    (∀ (c : Nat) (e : Err), isRateLimitError e = false → nextConsecutive429 c e = 0) ∧
    (∀ (S U : Type) (Q : RetryPolicy U) (opq : Nat → Except Err S) (jq : Nat → Rat),
      ∀ p ∈ (retryWithBackoff Q opq jq).states, p.2 ≤ p.1) ∧
    (retryWithBackoff P op j).hookCalls = [(P.authType, e3)] ∧
    (retryWithBackoff P op j).states =
      [(1, 0), (1, 0), (2, 0), (2, 1), (3, 1), (3, 2), (1, 0)] ∧
    (retryWithBackoff P op j).result = Except.ok r := by
  have hb1 : retryStep P op j initLoopState = StepRes.next
      ⟨2, 0, false, 1, [], [min P.initialDelayMs P.maxDelayMs],
        [min P.initialDelayMs P.maxDelayMs * j 0], [(1, 0), (1, 0)]⟩ := by
    have hnb : ¬ (P.maxAttempts ≤ 1) := by omega
    simp [retryStep, initLoopState, hop0, hsr, he1r, nextConsecutive429, he1n,
      offersEscalation, hhook, hnb]
  have hb2 : retryStep P op j
      ⟨2, 0, false, 1, [], [min P.initialDelayMs P.maxDelayMs],
        [min P.initialDelayMs P.maxDelayMs * j 0], [(1, 0), (1, 0)]⟩ = StepRes.next
      ⟨3, 1, false, 2, [],
        [min (P.initialDelayMs * 2) P.maxDelayMs, min P.initialDelayMs P.maxDelayMs],
        [min (P.initialDelayMs * 2) P.maxDelayMs * j 1,
          min P.initialDelayMs P.maxDelayMs * j 0],
        [(2, 1), (2, 0), (1, 0), (1, 0)]⟩ := by
    have hnb : ¬ (P.maxAttempts ≤ 2) := by omega
    simp [retryStep, hop1, hsr, defaultShouldRetry, he2, nextConsecutive429,
      isRateLimitError, offersEscalation, hhook, hnb]
  have hb3 : retryStep P op j
      ⟨3, 1, false, 2, [],
        [min (P.initialDelayMs * 2) P.maxDelayMs, min P.initialDelayMs P.maxDelayMs],
        [min (P.initialDelayMs * 2) P.maxDelayMs * j 1,
          min P.initialDelayMs P.maxDelayMs * j 0],
        [(2, 1), (2, 0), (1, 0), (1, 0)]⟩ = StepRes.next
      ⟨1, 0, true, 3, [(P.authType, e3)],
        [min (P.initialDelayMs * 2) P.maxDelayMs, min P.initialDelayMs P.maxDelayMs],
        [min (P.initialDelayMs * 2) P.maxDelayMs * j 1,
          min P.initialDelayMs P.maxDelayMs * j 0],
        [(3, 2), (3, 1), (2, 1), (2, 0), (1, 0), (1, 0)]⟩ := by
    simp [retryStep, hop2, hsr, defaultShouldRetry, he3, nextConsecutive429,
      isRateLimitError, offersEscalation, hhook, hperm, hacc]
  have hb4 : retryStep P op j
      ⟨1, 0, true, 3, [(P.authType, e3)],
        [min (P.initialDelayMs * 2) P.maxDelayMs, min P.initialDelayMs P.maxDelayMs],
        [min (P.initialDelayMs * 2) P.maxDelayMs * j 1,
          min P.initialDelayMs P.maxDelayMs * j 0],
        [(3, 2), (3, 1), (2, 1), (2, 0), (1, 0), (1, 0)]⟩ = StepRes.done
      ⟨Except.ok r, 4, [(P.authType, e3)],
        [min P.initialDelayMs P.maxDelayMs, min (P.initialDelayMs * 2) P.maxDelayMs],
        [min P.initialDelayMs P.maxDelayMs * j 0,
          min (P.initialDelayMs * 2) P.maxDelayMs * j 1],
        [(1, 0), (1, 0), (2, 0), (2, 1), (3, 1), (3, 2), (1, 0)]⟩ := by
    simp [retryStep, hop3, LoopState.finish]
  have hrun : retryWithBackoff P op j =
      ⟨Except.ok r, 4, [(P.authType, e3)],
        [min P.initialDelayMs P.maxDelayMs, min (P.initialDelayMs * 2) P.maxDelayMs],
        [min P.initialDelayMs P.maxDelayMs * j 0,
          min (P.initialDelayMs * 2) P.maxDelayMs * j 1],
        [(1, 0), (1, 0), (2, 0), (2, 1), (3, 1), (3, 2), (1, 0)]⟩ := by
    unfold retryWithBackoff
    rw [retryLoop_next P op j (by omega) hb1, retryLoop_next P op j (by omega) hb2,
      retryLoop_next P op j (by omega) hb3, retryLoop_done P op j (by omega) hb4]
  refine ⟨?_, ?_, ?_, ?_, ?_, ?_⟩
  · intro c e hrl
    simp [nextConsecutive429, hrl]
  · intro c e hrl
    simp [nextConsecutive429, hrl]
  · intro S U Q opq jq
    exact retryLoop_states_le Q opq jq _ initLoopState (by simp [initLoopState])
      (by simp [initLoopState])
  · rw [hrun]
  · rw [hrun]
  · rw [hrun]

/-- C5 witness: the mixed failure pattern (500, then two 429s, then success)
at a concrete OAuth policy with an accepting hook. -/
theorem retry_consecutive429_invariant_witness :
    (w5P.authType.permitsEscalation = true ∧ w5P.onPersistent429 = some wHookAccept ∧
      3 ≤ w5P.maxAttempts ∧ w5P.shouldRetry = defaultShouldRetry ∧
      defaultShouldRetry (Err.mk (some 500) 0) = true ∧
      isRateLimitError (Err.mk (some 500) 0) = false ∧
      (Err.mk (some 429) 1).status = some 429 ∧ (Err.mk (some 429) 2).status = some 429 ∧
      w5Op 0 = Except.error (Err.mk (some 500) 0) ∧
      w5Op 1 = Except.error (Err.mk (some 429) 1) ∧
      w5Op 2 = Except.error (Err.mk (some 429) 2) ∧
      w5Op 3 = Except.ok 99 ∧
      wHookAccept w5P.authType (Err.mk (some 429) 2) = HookOutcome.resolved (some 7)) ∧
    ((retryWithBackoff w5P w5Op wJone).hookCalls = [(w5P.authType, Err.mk (some 429) 2)] ∧
      (retryWithBackoff w5P w5Op wJone).states =
        [(1, 0), (1, 0), (2, 0), (2, 1), (3, 1), (3, 2), (1, 0)] ∧
      (retryWithBackoff w5P w5Op wJone).result = Except.ok 99) := by
  have hmain := retry_consecutive429_invariant w5P w5Op wJone wHookAccept
    (Err.mk (some 500) 0) (Err.mk (some 429) 1) (Err.mk (some 429) 2) 99 7
    rfl rfl (by decide) rfl (by decide) (by decide) rfl rfl rfl rfl rfl rfl rfl
  exact ⟨⟨rfl, rfl, by decide, rfl, by decide, by decide, rfl, rfl, rfl, rfl, rfl, rfl, rfl⟩,
    hmain.2.2.2.1, hmain.2.2.2.2.1, hmain.2.2.2.2.2⟩

/-! ## C6: a declined or throwing hook is a no-op -/

/-- C6.  When the escalation hook only resolves to null (decline) or throws,
the whole invocation behaves — in its final result, number of operation
invocations, scheduled delays and state snapshots — exactly as if no hook had
been configured: the retry state is unchanged by the hook call, the original
error continues through the normal delay/budget-exhaustion logic, and the
error surfaced to the caller is never the hook's own error or a replacement
of the underlying error. -/
theorem retry_declined_hook_noop {R T : Type} (P : RetryPolicy T) (op : Nat → Except Err R)
    (j : Nat → Rat) (h : AuthMode → Err → HookOutcome T)
    (hhook : P.onPersistent429 = some h)
    (hdecl : ∀ (a : AuthMode) (e : Err),
      h a e = HookOutcome.resolved none ∨ h a e = HookOutcome.raised) :
    (retryWithBackoff P op j).result =
      (retryWithBackoff ({ P with onPersistent429 := none } : RetryPolicy T) op j).result ∧
    (retryWithBackoff P op j).invocations =
      (retryWithBackoff ({ P with onPersistent429 := none } : RetryPolicy T) op j).invocations ∧
    (retryWithBackoff P op j).baseDelays =
      (retryWithBackoff ({ P with onPersistent429 := none } : RetryPolicy T) op j).baseDelays ∧
    (retryWithBackoff P op j).delays =
      (retryWithBackoff ({ P with onPersistent429 := none } : RetryPolicy T) op j).delays ∧
    (retryWithBackoff P op j).states =
      (retryWithBackoff ({ P with onPersistent429 := none } : RetryPolicy T) op j).states := by
  have hagree := retryLoop_agrees_of_decline P ({ P with onPersistent429 := none } : RetryPolicy T)
    op j rfl rfl rfl rfl rfl h hhook hdecl (2 * P.maxAttempts + 1) initLoopState initLoopState
    ⟨rfl, rfl, rfl, rfl, rfl, rfl⟩
  exact hagree

/-- C6 witness: a declining hook at a concrete OAuth policy over an
always-rate-limited operation behaves exactly like the hookless policy. -/
theorem retry_declined_hook_noop_witness :
    (w6P.onPersistent429 = some wHookDecline ∧
      (∀ (a : AuthMode) (e : Err), wHookDecline a e = HookOutcome.resolved none ∨
        wHookDecline a e = HookOutcome.raised)) ∧
    ((retryWithBackoff w6P wOp429 wJone).result =
      (retryWithBackoff ({ w6P with onPersistent429 := none } : RetryPolicy Nat) wOp429 wJone).result ∧
    (retryWithBackoff w6P wOp429 wJone).invocations =
      (retryWithBackoff ({ w6P with onPersistent429 := none } : RetryPolicy Nat) wOp429 wJone).invocations ∧
    (retryWithBackoff w6P wOp429 wJone).baseDelays =
      (retryWithBackoff ({ w6P with onPersistent429 := none } : RetryPolicy Nat) wOp429 wJone).baseDelays ∧
    (retryWithBackoff w6P wOp429 wJone).delays =
      (retryWithBackoff ({ w6P with onPersistent429 := none } : RetryPolicy Nat) wOp429 wJone).delays ∧
    (retryWithBackoff w6P wOp429 wJone).states =
      (retryWithBackoff ({ w6P with onPersistent429 := none } : RetryPolicy Nat) wOp429 wJone).states) :=
  ⟨⟨rfl, fun _ _ => Or.inl rfl⟩,
    retry_declined_hook_noop w6P wOp429 wJone wHookDecline rfl (fun _ _ => Or.inl rfl)⟩

/-! ## C7: capped exponential backoff with multiplicative jitter -/

/-- C7.  In a plain retry run (no hook configured, operation failing retryably
on every attempt), the pre-jitter base delay before the Nth retry (0-based
`n = N − 1` below) equals `min (initialDelay * 2 ^ (N − 1)) maxDelay` — the
cap is applied to the base before jitter — and the actual delay is the base
multiplied by the jitter factor, which keeps it within
`[0.7 × base, 1.3 × base]` whenever the jitter stream stays in `[0.7, 1.3]`.
In particular, with `initialDelay = 100` and `maxDelay = 250` the three
pre-jitter delays are `100, 200, 250` and each actual delay is the base times
the corresponding jitter factor. -/
theorem retry_backoff_delays (j : Nat → Rat)
    (hj : ∀ n, (7 : Rat) / 10 ≤ j n ∧ j n ≤ 13 / 10) :
    (∀ (S U : Type) (P : RetryPolicy U) (op : Nat → Except Err S) (F : Nat → Err),
      P.onPersistent429 = none → (∀ k, op k = Except.error (F k)) →
      (∀ k, P.shouldRetry (F k) = true) → 1 ≤ P.maxAttempts →
      0 ≤ P.initialDelayMs → 0 ≤ P.maxDelayMs →
      (retryWithBackoff P op j).baseDelays =
        (List.range (P.maxAttempts - 1)).map
          (fun n => min (P.initialDelayMs * 2 ^ n) P.maxDelayMs) ∧
      (retryWithBackoff P op j).delays =
        (List.range (P.maxAttempts - 1)).map
          (fun n => min (P.initialDelayMs * 2 ^ n) P.maxDelayMs * j n) ∧
      (∀ n, (7 : Rat) / 10 * min (P.initialDelayMs * 2 ^ n) P.maxDelayMs ≤
          min (P.initialDelayMs * 2 ^ n) P.maxDelayMs * j n ∧
        min (P.initialDelayMs * 2 ^ n) P.maxDelayMs * j n ≤
          (13 : Rat) / 10 * min (P.initialDelayMs * 2 ^ n) P.maxDelayMs)) ∧
    (retryWithBackoff w7P wOp500 j).baseDelays = [100, 200, 250] ∧
    (retryWithBackoff w7P wOp500 j).delays = [100 * j 0, 200 * j 1, 250 * j 2] := by
  have hgen : ∀ (S U : Type) (P : RetryPolicy U) (op : Nat → Except Err S) (F : Nat → Err),
      P.onPersistent429 = none → (∀ k, op k = Except.error (F k)) →
      (∀ k, P.shouldRetry (F k) = true) → 1 ≤ P.maxAttempts →
      (retryWithBackoff P op j).baseDelays =
        (List.range (P.maxAttempts - 1)).map
          (fun n => min (P.initialDelayMs * 2 ^ n) P.maxDelayMs) ∧
      (retryWithBackoff P op j).delays =
        (List.range (P.maxAttempts - 1)).map
          (fun n => min (P.initialDelayMs * 2 ^ n) P.maxDelayMs * j n) := by
    intro S U P op F hnone hop hre hM
    have hres := retryLoop_none_allFail P op j F hnone hop hre (2 * P.maxAttempts + 1)
      initLoopState (by simp [initLoopState]) (by simp [initLoopState]; omega)
      (by simp [initLoopState]; omega) (by simp [initLoopState])
    obtain ⟨_, _, hb, hd⟩ := hres
    constructor
    · rw [retryWithBackoff, hb]
      simp [initLoopState]
    · rw [retryWithBackoff, hd]
      simp [initLoopState]
  refine ⟨?_, ?_, ?_⟩
  · intro S U P op F hnone hop hre hM hd0 hdm
    obtain ⟨hb, hd⟩ := hgen S U P op F hnone hop hre hM
    refine ⟨hb, hd, ?_⟩
    intro n
    have hbase0 : (0 : Rat) ≤ min (P.initialDelayMs * 2 ^ n) P.maxDelayMs :=
      le_min (by positivity) hdm
    obtain ⟨hj1, hj2⟩ := hj n
    constructor
    · nlinarith
    · nlinarith
  · obtain ⟨hb, _⟩ := hgen Nat Nat w7P wOp500 (fun k => Err.mk (some 500) k) rfl
      (fun _ => rfl) (fun _ => rfl) (by decide)
    rw [hb]
    norm_num [List.range_succ, min_def, w7P]
  · obtain ⟨_, hd⟩ := hgen Nat Nat w7P wOp500 (fun k => Err.mk (some 500) k) rfl
      (fun _ => rfl) (fun _ => rfl) (by decide)
    rw [hd]
    norm_num [List.range_succ, min_def, w7P]

/-- The constant jitter stream 1 lies within the jitter bounds. -/
theorem wJone_bounds : ∀ n, (7 : Rat) / 10 ≤ wJone n ∧ wJone n ≤ 13 / 10 := by
  intro n
  constructor <;> norm_num [wJone]

/-- C7 witness: the backoff schedule at the concrete capped policy and the
constant jitter stream 1. -/
theorem retry_backoff_delays_witness :
    (∀ n, (7 : Rat) / 10 ≤ wJone n ∧ wJone n ≤ 13 / 10) ∧
    ((retryWithBackoff w7P wOp500 wJone).baseDelays = [100, 200, 250] ∧
      (retryWithBackoff w7P wOp500 wJone).delays =
        [100 * wJone 0, 200 * wJone 1, 250 * wJone 2]) :=
  ⟨wJone_bounds, (retry_backoff_delays wJone wJone_bounds).2⟩

/-! ## C8: the default retryability classification -/

/-- C8.  Under the default `shouldRetry` predicate an error is retryable if
and only if it carries a numeric status equal to 429 or in the range 500–599;
and for any invocation whose first failure is not retryable under the default
predicate, the operation is invoked exactly once — regardless of
`maxAttempts` — the error propagates unchanged, no delay is scheduled and no
hook is called. -/
theorem retry_default_classification {R T : Type} (P : RetryPolicy T)
    (op : Nat → Except Err R) (j : Nat → Rat) (e : Err)
    (hsr : P.shouldRetry = defaultShouldRetry)
    (hop0 : op 0 = Except.error e)
    (hno : defaultShouldRetry e = false) :
    (∀ e' : Err, defaultShouldRetry e' = true ↔
      (∃ st, e'.status = some st ∧ (st = 429 ∨ (500 ≤ st ∧ st ≤ 599)))) ∧
    retryWithBackoff P op j =
      { result := Except.error e, invocations := 1, hookCalls := [],
        baseDelays := [], delays := [], states := [(1, 0)] } := by
  constructor
  · intro e'
    cases he : e'.status with
    | none => simp [defaultShouldRetry, he]
    | some st =>
      simp only [defaultShouldRetry, he]
      constructor
      · intro hb
        refine ⟨st, rfl, ?_⟩
        simp at hb
        omega
      · rintro ⟨st', hst', hd⟩
        injection hst' with hst'
        subst hst'
        simp
        omega
  · have hb1 : retryStep P op j initLoopState = StepRes.done
        ⟨Except.error e, 1, [], [], [], [(1, 0)]⟩ := by
      simp [retryStep, initLoopState, hop0, hsr, hno, LoopState.finish]
    unfold retryWithBackoff
    rw [retryLoop_done P op j (by omega) hb1]

/-- C8 witness: a 400-status error is not retryable and propagates after a
single invocation under the default policy with budget 5. -/
theorem retry_default_classification_witness :
    (w8P.shouldRetry = defaultShouldRetry ∧
      wOp400 0 = Except.error (Err.mk (some 400) 0) ∧
      defaultShouldRetry (Err.mk (some 400) 0) = false) ∧
    ((∀ e' : Err, defaultShouldRetry e' = true ↔
        (∃ st, e'.status = some st ∧ (st = 429 ∨ (500 ≤ st ∧ st ≤ 599)))) ∧
      retryWithBackoff w8P wOp400 wJone =
        { result := Except.error (Err.mk (some 400) 0), invocations := 1, hookCalls := [],
          baseDelays := [], delays := [], states := [(1, 0)] }) :=
  ⟨⟨rfl, rfl, rfl⟩,
    retry_default_classification w8P wOp400 wJone (Err.mk (some 400) 0) rfl rfl rfl⟩

/-! ## C9 and C10: checkpoint store loading -/

/-- C9.  For every non-empty tag or path (on a service whose `initialized`
flag implies a recorded directory, as maintained by the code), `load` never
throws: the resolved path exists, an absent checkpoint file yields `[]`
silently, a read failure or unparseable JSON is logged and yields `[]`,
parsed JSON that is not an array is warned about and yields `[]`, and a JSON
array is returned as-is. -/
theorem chatHistory_load_never_throws (svc : ChatHistoryService)
    (fs : String → Option StoredFile) (cwd tagOrPath : String)
    (hwf : svc.initialized = true → svc.geminiDir.isSome = true)
    (ht : tagOrPath ≠ "") :
    (∃ items, (svc.load fs cwd tagOrPath).1 = Except.ok items) ∧
    ∀ p, resolveLoadPath (svc.initStep cwd) tagOrPath = Except.ok p →
      ((fs p = none → svc.load fs cwd tagOrPath = (Except.ok [], [])) ∧
       (fs p = some StoredFile.unreadable →
         svc.load fs cwd tagOrPath = (Except.ok [], [LogEvent.errorReadOrParse p])) ∧
       (fs p = some StoredFile.invalidJson →
         svc.load fs cwd tagOrPath = (Except.ok [], [LogEvent.errorReadOrParse p])) ∧
       (fs p = some StoredFile.jsonOther →
         svc.load fs cwd tagOrPath = (Except.ok [], [LogEvent.warnNotArray p])) ∧
       (∀ items, fs p = some (StoredFile.jsonArray items) →
         svc.load fs cwd tagOrPath = (Except.ok items, []))) := by
  have hpath : ∃ p, resolveLoadPath (svc.initStep cwd) tagOrPath = Except.ok p := by
    unfold resolveLoadPath
    by_cases habs : isAbsolutePath tagOrPath
    · exact ⟨tagOrPath, by simp [habs]⟩
    · have hlen : ¬ (tagOrPath.length = 0) := by
        intro hh
        apply ht
        obtain ⟨data⟩ := tagOrPath
        have hl0 : data.length = 0 := hh
        have hd0 : data = [] := List.length_eq_zero.mp hl0
        rw [hd0]
      have hdir : ∃ d, (svc.initStep cwd).geminiDir = some d := by
        unfold ChatHistoryService.initStep
        cases hinit : svc.initialized with
        | true => simpa using Option.isSome_iff_exists.mp (hwf hinit)
        | false => simp
      obtain ⟨d, hd⟩ := hdir
      refine ⟨d ++ "/checkpoint-" ++ tagOrPath ++ ".json", ?_⟩
      simp [habs, ChatHistoryService.checkpointPath, hlen, hd]
  obtain ⟨p0, hp0⟩ := hpath
  constructor
  · cases hfs : fs p0 with
    | none => exact ⟨[], by simp [ChatHistoryService.load, hp0, hfs]⟩
    | some sf =>
      cases sf with
      | unreadable => exact ⟨[], by simp [ChatHistoryService.load, hp0, hfs]⟩
      | invalidJson => exact ⟨[], by simp [ChatHistoryService.load, hp0, hfs]⟩
      | jsonArray items => exact ⟨items, by simp [ChatHistoryService.load, hp0, hfs]⟩
      | jsonOther => exact ⟨[], by simp [ChatHistoryService.load, hp0, hfs]⟩
  · intro p hp
    have hpp : p0 = p := by
      rw [hp0] at hp
      injection hp
    subst hpp
    refine ⟨?_, ?_, ?_, ?_, ?_⟩
    · intro hfs
      simp [ChatHistoryService.load, hp0, hfs]
    · intro hfs
      simp [ChatHistoryService.load, hp0, hfs]
    · intro hfs
      simp [ChatHistoryService.load, hp0, hfs]
    · intro hfs
      simp [ChatHistoryService.load, hp0, hfs]
    · intro items hfs
      simp [ChatHistoryService.load, hp0, hfs]

/-- C9 witness: loading a missing checkpoint on a fresh service returns the
empty conversation without logging. -/
theorem chatHistory_load_never_throws_witness :
    ((ChatHistoryService.new.initialized = true →
        ChatHistoryService.new.geminiDir.isSome = true) ∧
      ("test" : String) ≠ "") ∧
    (∃ items, (ChatHistoryService.new.load (fun _ => none) "/work" "test").1 =
      Except.ok items) :=
  ⟨⟨by decide, by decide⟩,
    (chatHistory_load_never_throws ChatHistoryService.new (fun _ => none) "/work" "test"
      (by decide) (by decide)).1⟩

/-- C10.  For the empty-string tag, `save` and `load` (with a non-absolute
argument) throw the error 'No checkpoint tag specified.' instead of returning
an empty result: the checkpoint-path computation rejects empty tags outside
the try/catch blocks that swallow I/O failures. -/
theorem chatHistory_empty_tag_throws (svc : ChatHistoryService)
    (fs : String → Option StoredFile) (cwd : String) (conversation : List Content)
    (writeOk : Bool) :
    isAbsolutePath "" = false ∧
    (svc.load fs cwd "").1 = Except.error CheckpointError.noCheckpointTag ∧
    svc.save fs cwd conversation "" writeOk = Except.error CheckpointError.noCheckpointTag ∧
    CheckpointError.noCheckpointTag.message = "No checkpoint tag specified." := by
  obtain ⟨gd, ini⟩ := svc
  refine ⟨rfl, ?_, ?_, rfl⟩
  · have hs : ("" : String).startsWith "/" = false := rfl
    cases ini <;>
      simp [ChatHistoryService.load, resolveLoadPath, isAbsolutePath,
        ChatHistoryService.checkpointPath, ChatHistoryService.initStep, hs]
  · cases ini <;>
      simp [ChatHistoryService.save, ChatHistoryService.checkpointPath,
        ChatHistoryService.initStep]
